import Mathlib

/-!
Verification development for the setup-agda action.

This file gives a shallow embedding of the version-compatibility decision
engine and the binary-distribution packaging pipeline of the repository
(`src/opts.ts`, `src/util/icu.ts`, `src/setup-agda/bdist.ts`,
`src/setup-agda/build-from-sdist/stack.ts`), together with theorems settling
the frozen claims about it.
-/

namespace SetupAgda

/-! ## VersionComparator (`simver`)

The module `src/util/simver.ts` is consumed by `opts.ts` and `icu.ts` but is
not itself among the provided sources, so it is modelled from the spec here.
-/

namespace simver

/-- Modelled from the spec: splitting a version string into its dot-separated
components (the module `src/util/simver.ts` is missing from the sources).
`splitOnChar c l` splits the character list `l` on the character `c`,
mirroring the usual string-split semantics: `"8.4"` becomes `["8", "4"]` and
the empty string becomes `[""]`. -/
def splitOnChar (c : Char) : List Char → List (List Char)
  | [] => [[]]
  | a :: as =>
    let r := splitOnChar c as
    if a = c then [] :: r
    else (a :: r.headD []) :: r.tail

/-- Numeric value of a list of decimal digit characters. -/
def digitsToNat (l : List Char) : Nat :=
  l.foldl (fun n c => 10 * n + (c.toNat - 48)) 0

/-- Modelled from the spec: a version component parses only when it is a
non-empty string of decimal digits; anything else makes the component, and
hence the whole version, malformed. -/
def parseComponent (l : List Char) : Option Nat :=
  if l ≠ [] ∧ l.all Char.isDigit then some (digitsToNat l) else none

/-- Modelled from the spec: a version string parses to its list of numeric
components, or fails to parse when any component is malformed (for example
`"nightly"` or the empty string). -/
def parseVersion (s : String) : Option (List Nat) :=
  (splitOnChar '.' s.data).mapM parseComponent

/-- Zero-pad a component list on the right to length `n` (missing trailing
components are treated as zero). -/
def padTo (n : Nat) (l : List Nat) : List Nat :=
  l ++ List.replicate (n - l.length) 0

/-- Lexicographic comparison of two component lists of equal interest length. -/
def cmpSame : List Nat → List Nat → Ordering
  | [], _ => Ordering.eq
  | _, [] => Ordering.eq
  | a :: as, b :: bs =>
    match compare a b with
    | Ordering.eq => cmpSame as bs
    | o => o

/-- Modelled from the spec: three-way comparison of parsed versions, with
missing trailing components padded by zero. -/
def cmpVersion (x y : List Nat) : Ordering :=
  cmpSame (padTo (max x.length y.length) x) (padTo (max x.length y.length) y)

/-- Modelled from the spec: `gte a b` holds when both versions parse and `a`
is not below `b`; it fails closed (returns `false`) on malformed input. -/
def gte (a b : String) : Bool :=
  match parseVersion a, parseVersion b with
  | some x, some y =>
    match cmpVersion x y with
    | Ordering.lt => false
    | _ => true
  | _, _ => false

/-- Modelled from the spec: `lt a b` holds when both versions parse and `a`
is strictly below `b`; it fails closed (returns `false`) on malformed input. -/
def lt (a b : String) : Bool :=
  match parseVersion a, parseVersion b with
  | some x, some y =>
    match cmpVersion x y with
    | Ordering.lt => true
    | _ => false
  | _, _ => false

/-- Modelled from the spec: version equality up to trailing-zero padding;
fails closed on malformed input. -/
def eq (a b : String) : Bool :=
  match parseVersion a, parseVersion b with
  | some x, some y =>
    match cmpVersion x y with
    | Ordering.eq => true
    | _ => false
  | _, _ => false

end simver

/-! ## Data model (`src/opts.ts`) -/

/-- The operating-system identifier established once at process start
(`export const os : OS` in `opts.ts`); per the spec's design notes it is
modelled as an explicit value passed to the components that consult it. -/
inductive OS
  | linux
  | macos
  | windows
deriving DecidableEq

/-- Lifecycle status of a Hackage package (`PackageStatus` in `opts.ts`). -/
inductive PackageStatus
  | normal
  | deprecated
deriving DecidableEq

/-- Package metadata cache (`PackageInfoCache` in `opts.ts`): a finite map
from package name to status, plus a last-modified stamp. -/
structure PackageInfoCache where
  packageInfo : List (String × PackageStatus)
  lastModified : String
deriving DecidableEq

/-- The resolved build options (`BuildOptions` in `opts.ts`): the
`SetupAgdaInputs` fields (six string options, ten boolean flags) together
with the extra fields populated by later pipeline steps. -/
structure BuildOptions where
  «agda-version» : String
  «bdist-name» : String
  «ghc-version-range» : String
  «cabal-version» : String
  «ghc-version» : String
  «stack-version» : String
  «bdist-compress-exe» : Bool
  «bdist-upload» : Bool
  «disable-cluster-counting» : Bool
  «force-build» : Bool
  «force-no-build» : Bool
  «ghc-version-match-exact» : Bool
  «disable-matcher» : Bool
  «enable-stack» : Bool
  «stack-no-global» : Bool
  «stack-setup-ghc» : Bool
  «extra-include-dirs» : List String
  «extra-lib-dirs» : List String
  «ghc-supported-versions» : List String
  «icu-version» : Option String
  «upx-version» : Option String
  «package-info-cache» : Option PackageInfoCache
deriving DecidableEq

/-! ## CompatibilityEngine (`src/opts.ts`, helper predicates) -/

/-- The executable-compression decision (`compressExe` in `opts.ts`).  The
source carries a NOTE saying executables are not compressed on MacOS or
Windows, but the function body returns the user's flag with no platform
check at all (it does not reference `os`). -/
def compressExe (options : BuildOptions) : Bool :=
  options.«bdist-compress-exe»

/-- The Unicode-cluster-counting rule (`supportsClusterCounting` in
`opts.ts`): the conjunction of the Agda-version clause (>= 2.5.3), the user
clause, the Stack clause, and the text-icu dependency clause (>= 2.6.2). -/
def supportsClusterCounting (options : BuildOptions) : Bool :=
  let agda := simver.gte options.«agda-version» "2.5.3"
  let user := !options.«disable-cluster-counting»
  let todo := !options.«enable-stack»
  let depr := simver.gte options.«agda-version» "2.6.2"
  agda && user && todo && depr

/-- The aggressive-optimization rule (`supportsOptimiseHeavily` in
`opts.ts`). -/
def supportsOptimiseHeavily (options : BuildOptions) : Bool :=
  simver.gte options.«agda-version» "2.6.2"

/-- The static-executable-linking rule (`supportsExecutableStatic` in
`opts.ts`).  In the source the platform clause is the literal `false` (the
`os === 'linux'` test is commented out as unsupported on Ubuntu 20.04), so
the function does not reference the platform at all. -/
def supportsExecutableStatic (options : BuildOptions) : Bool :=
  let osOK := false
  let ghcVersionOK := simver.gte options.«ghc-version» "8.4"
  osOK && ghcVersionOK

/-- The section-splitting rule (`supportsSplitSections` in `opts.ts`). -/
def supportsSplitSections (os : OS) (options : BuildOptions) : Bool :=
  let osOK := os == OS.linux || os == OS.windows
  let ghcVersionOK := simver.gte options.«ghc-version» "8.0"
  let cabalVersionOK := simver.gte options.«cabal-version» "2.2"
  osOK && ghcVersionOK && cabalVersionOK

/-- The compression-tool-usability predicate (`supportsUPX` in `opts.ts`):
the source computes `os !== 'macos' || simver.lt(release(), '21')`, where
`release()` is the Darwin kernel release string on macOS. -/
def supportsUPX (os : OS) (release : String) : Bool :=
  os != OS.macos || simver.lt release "21"

/-! ## OptionsResolver (`getOptions` in `src/opts.ts`) -/

/-- A raw input value for a declared flag, as it may arrive from the three
unified input sources of `getOptions` (an explicit record holds booleans, an
environment-style record or a callback holds strings). -/
inductive RawInput
  | str (s : String)
  | bool (b : Bool)
deriving DecidableEq

/-- The declared free-text options of the action (`SetupAgdaOption` in
`opts.ts`, including the inherited `SetupHaskellOption` members). -/
inductive SetupAgdaOption
  | «agda-version»
  | «bdist-name»
  | «ghc-version-range»
  | «cabal-version»
  | «ghc-version»
  | «stack-version»
deriving DecidableEq

/-- The declared boolean flags of the action (`SetupAgdaFlag` in `opts.ts`,
including the inherited `SetupHaskellFlag` members). -/
inductive SetupAgdaFlag
  | «bdist-compress-exe»
  | «bdist-upload»
  | «disable-cluster-counting»
  | «force-build»
  | «force-no-build»
  | «ghc-version-match-exact»
  | «disable-matcher»
  | «enable-stack»
  | «stack-no-global»
  | «stack-setup-ghc»
deriving DecidableEq

/-- The unified input-lookup capability consumed by `getOptions`: for every
declared option an optional raw string, for every declared flag an optional
raw string-or-boolean value (`inputs` parameter of `getOptions`). -/
structure Inputs where
  option : SetupAgdaOption → Option String
  flag : SetupAgdaFlag → Option RawInput

/-- Whitespace trimming on character lists, mirroring the string `trim`
method used by `getOptions`. -/
def trimChars (l : List Char) : List Char :=
  ((l.dropWhile Char.isWhitespace).reverse.dropWhile Char.isWhitespace).reverse

/-- Whitespace trimming of a string (`maybeInput?.trim()` in `getOptions`). -/
def trim (s : String) : String :=
  ⟨trimChars s.data⟩

/-- The `bdist-name` normalization of `getOptions`:
`split(/\s+/g).join('').trim()` removes every whitespace character (splitting
on whitespace runs and rejoining with the empty separator deletes exactly the
whitespace), after which the final `trim` is a no-op. -/
def bdistNormalize (s : String) : String :=
  trim ⟨s.data.filter (fun c => !c.isWhitespace)⟩

/-- Option resolution of `getOptions` (`getOption` inner function): a present
input is trimmed; an absent input falls back to the declared default, or to
the empty string when no default is declared.  The default itself is not
trimmed by the source. -/
def getOption (defaults : SetupAgdaOption → Option String) (i : Inputs)
    (k : SetupAgdaOption) : String :=
  match i.option k with
  | some s => trim s
  | none => (defaults k).getD ""

/-- Flag resolution of `getOptions` (`getFlag` inner function):
`![false, '', 'false', undefined].includes(maybeInput)`, so the result is
`false` exactly on the four listed falsy representations and `true` on every
other raw value. -/
def getFlag (i : Inputs) (k : SetupAgdaFlag) : Bool :=
  match i.flag k with
  | none => false
  | some (RawInput.bool b) => b
  | some (RawInput.str s) => !(s == "" || s == "false")

/-- The default distribution-name template
(`bdistNameDefaultTemplate` in `opts.ts`). -/
def bdistNameDefaultTemplate : String :=
  "agda-\x7b\x7b\x7bagda-version\x7d\x7d\x7d-\x7b\x7b\x7barch\x7d\x7d\x7d-\x7b\x7b\x7bplatform\x7d\x7d\x7d"

/-- The record assembled by `getOptions` before validation: each declared
option and flag is resolved, the directory lists are initialized empty, and
the optional fields are left absent. -/
def resolveRecord (defaults : SetupAgdaOption → Option String) (i : Inputs) :
    BuildOptions where
  «agda-version» := getOption defaults i SetupAgdaOption.«agda-version»
  «bdist-name» := getOption defaults i SetupAgdaOption.«bdist-name»
  «ghc-version-range» := getOption defaults i SetupAgdaOption.«ghc-version-range»
  «cabal-version» := getOption defaults i SetupAgdaOption.«cabal-version»
  «ghc-version» := getOption defaults i SetupAgdaOption.«ghc-version»
  «stack-version» := getOption defaults i SetupAgdaOption.«stack-version»
  «bdist-compress-exe» := getFlag i SetupAgdaFlag.«bdist-compress-exe»
  «bdist-upload» := getFlag i SetupAgdaFlag.«bdist-upload»
  «disable-cluster-counting» := getFlag i SetupAgdaFlag.«disable-cluster-counting»
  «force-build» := getFlag i SetupAgdaFlag.«force-build»
  «force-no-build» := getFlag i SetupAgdaFlag.«force-no-build»
  «ghc-version-match-exact» := getFlag i SetupAgdaFlag.«ghc-version-match-exact»
  «disable-matcher» := getFlag i SetupAgdaFlag.«disable-matcher»
  «enable-stack» := getFlag i SetupAgdaFlag.«enable-stack»
  «stack-no-global» := getFlag i SetupAgdaFlag.«stack-no-global»
  «stack-setup-ghc» := getFlag i SetupAgdaFlag.«stack-setup-ghc»
  «extra-include-dirs» := []
  «extra-lib-dirs» := []
  «ghc-supported-versions» := []
  «icu-version» := none
  «upx-version» := none
  «package-info-cache» := none

/-- The validation chain of `getOptions`, in source order: the `"nightly"`
sentinel is rejected; the exact `ghc-version` input must be the literal
`"latest"`; the `ghc-version-range` must be accepted by the range parser
(`semver.validRange`, an external library modelled as the oracle
`validRange`); the two force flags are mutually exclusive; finally the
`bdist-name` template is parsed (`Mustache.parse`, an external library
modelled as the oracle `mustacheOk`) — either the system default template
when the resolved name is empty, or the whitespace-normalized user template,
whose parse failure is surfaced as a resolution error. -/
def validate (validRange mustacheOk : String → Bool) (options : BuildOptions) :
    Except String BuildOptions :=
  if options.«agda-version» = "nightly" then
    Except.error "Value nightly for input agda-version is unsupported"
  else if ¬ options.«ghc-version» = "latest" then
    Except.error "Input ghc-version is unsupported. Use ghc-version-range"
  else if ¬ validRange options.«ghc-version-range» = true then
    Except.error "Input ghc-version-range is not a valid version range"
  else if options.«force-build» && options.«force-no-build» then
    Except.error "Build or no build?"
  else if options.«bdist-name» = "" then
    if mustacheOk bdistNameDefaultTemplate then Except.ok options
    else Except.error "Could not parse the default bdist-name template"
  else
    if mustacheOk (bdistNormalize options.«bdist-name») then
      Except.ok
        { options with «bdist-name» := bdistNormalize options.«bdist-name» }
    else Except.error "Could not parse bdist-name"

/-- The options resolver (`getOptions` in `opts.ts`): assemble the record
from the inputs and the declared defaults (read from the action metadata),
then validate it. -/
def getOptions (defaults : SetupAgdaOption → Option String)
    (validRange mustacheOk : String → Bool) (i : Inputs) :
    Except String BuildOptions :=
  validate validRange mustacheOk (resolveRecord defaults i)

/-- Feeding a resolved `BuildOptions` back through the input-lookup
capability: every declared option is presented as its resolved string and
every declared flag as its resolved boolean. -/
def toInputs (o : BuildOptions) : Inputs where
  option k :=
    some (match k with
      | SetupAgdaOption.«agda-version» => o.«agda-version»
      | SetupAgdaOption.«bdist-name» => o.«bdist-name»
      | SetupAgdaOption.«ghc-version-range» => o.«ghc-version-range»
      | SetupAgdaOption.«cabal-version» => o.«cabal-version»
      | SetupAgdaOption.«ghc-version» => o.«ghc-version»
      | SetupAgdaOption.«stack-version» => o.«stack-version»)
  flag k :=
    some (RawInput.bool (match k with
      | SetupAgdaFlag.«bdist-compress-exe» => o.«bdist-compress-exe»
      | SetupAgdaFlag.«bdist-upload» => o.«bdist-upload»
      | SetupAgdaFlag.«disable-cluster-counting» => o.«disable-cluster-counting»
      | SetupAgdaFlag.«force-build» => o.«force-build»
      | SetupAgdaFlag.«force-no-build» => o.«force-no-build»
      | SetupAgdaFlag.«ghc-version-match-exact» => o.«ghc-version-match-exact»
      | SetupAgdaFlag.«disable-matcher» => o.«disable-matcher»
      | SetupAgdaFlag.«enable-stack» => o.«enable-stack»
      | SetupAgdaFlag.«stack-no-global» => o.«stack-no-global»
      | SetupAgdaFlag.«stack-setup-ghc» => o.«stack-setup-ghc»))

/-! ## ICU version resolution (`src/util/icu.ts`) -/

/-- The ICU version resolution step (`resolveIcuVersion` in
`src/util/icu.ts`): picks ICU 71.1 for Agda >= 2.6.2, ICU 67.1 for
Agda >= 2.5.3, and otherwise leaves the options untouched; all other
fields are copied unchanged by the record update. -/
def resolveIcuVersion (options : BuildOptions) : BuildOptions :=
  if simver.gte options.«agda-version» "2.6.2" then
    { options with «icu-version» := some "71.1" }
  else if simver.gte options.«agda-version» "2.5.3" then
    { options with «icu-version» := some "67.1" }
  else
    options

/-! ## PackagingPipeline (`src/setup-agda/bdist.ts`) -/

/-- The download step (`download` in `bdist.ts`): look the rendered
distribution name up in the package index; on a hit, attempt to fetch the
URL (`tc.downloadTool`, an external collaborator modelled as the oracle
`fetch`), catching any fetch error and degrading it to the "not found"
result `null`; on a miss, return `null` directly.  The `Except` layer of the
return type records whether the step itself raises to its caller: a
`Except.ok none` result is the caught, non-raising "not found" outcome. -/
def download (index : String → Option String)
    (fetch : String → Except String String) (bdistName : String) :
    Except String (Option String) :=
  match index bdistName with
  | some url =>
    match fetch url with
    | Except.ok p => Except.ok (some p)
    | Except.error _ => Except.ok none
  | none => Except.ok none

/-- Modelled from the spec: the compression guard `opts.shouldCompressExe`
called by `upload` in `bdist.ts` is not among the provided sources; per the
spec's compatibility table the decision is unconditionally false on macOS
and Windows (unsigned compressed executables break platform security
policies) and is the user's flag on Linux. -/
def shouldCompressExe (os : OS) (options : BuildOptions) : Bool :=
  match os with
  | OS.linux => options.«bdist-compress-exe»
  | OS.macos => false
  | OS.windows => false

/-- The compression loop of `upload` in `bdist.ts`
(`for (const binName of util.agdaBinNames) await compressBin(...)` inside a
single `try` block): executables are compressed in order until the first
failure of the compression tool, which throws out of the loop; the result is
the list of executables on which compression was attempted together with the
first error, if any. -/
def compressBins (fails : String → Option String) :
    List String → List String × Option String
  | [] => ([], none)
  | b :: bs =>
    match fails b with
    | some e => ([b], some e)
    | none =>
      let r := compressBins fails bs
      (b :: r.1, r.2)

/-- The external collaborators of the packaging step `upload` in `bdist.ts`,
modelled as oracles: the compression-tool installer `setupUpx`, the
per-executable compression outcome, the ICU bundling step `icu.bundle`, the
smoke test `util.agdaTest`, and the artifact service's
`uploadArtifact` result (artifact name and failed items). -/
structure UploadEnv where
  setupUpx : Except String String
  compressFails : String → Option String
  bundleResult : Except String Unit
  testResult : Except String Unit
  uploadResult : String × List String

/-- Observable trace of one `upload` run: which executables the compression
tool was invoked on, and whether the smoke test and the artifact upload
were reached. -/
structure UploadTrace where
  compressAttempted : List String
  testInvoked : Bool
  uploadInvoked : Bool
deriving DecidableEq

/-- The packaging step (`upload` in `bdist.ts`), after the unconditional
directory assembly (binary and data copies): when the compression guard
holds, install the compression tool and compress each executable inside one
`try` block whose `catch` only logs, so neither an installer failure nor a
compression failure escapes; then bundle ICU when an `icu-version` is
resolved (a bundling error is not caught); then run the smoke test (a test
error is not caught); finally call the artifact service and return the
artifact name, with failed items merely reported. -/
def upload (os : OS) (options : BuildOptions) (env : UploadEnv)
    (bins : List String) : Except String String × UploadTrace :=
  let attempted : List String :=
    if shouldCompressExe os options then
      match env.setupUpx with
      | Except.ok _ => (compressBins env.compressFails bins).1
      | Except.error _ => []
    else []
  match (if (options.«icu-version»).isSome then env.bundleResult
         else Except.ok ()) with
  | Except.error e =>
    (Except.error e,
     { compressAttempted := attempted, testInvoked := false,
       uploadInvoked := false })
  | Except.ok _ =>
    match env.testResult with
    | Except.error e =>
      (Except.error e,
       { compressAttempted := attempted, testInvoked := true,
         uploadInvoked := false })
    | Except.ok _ =>
      (Except.ok env.uploadResult.1,
       { compressAttempted := attempted, testInvoked := true,
         uploadInvoked := true })

/-! ## Sample values used by concrete witnesses -/

/-- A fully resolved options record with every option empty, every flag
off, every list empty and every optional field absent; concrete witnesses
below update single fields of it. -/
def sampleOptions : BuildOptions where
  «agda-version» := ""
  «bdist-name» := ""
  «ghc-version-range» := ""
  «cabal-version» := ""
  «ghc-version» := ""
  «stack-version» := ""
  «bdist-compress-exe» := false
  «bdist-upload» := false
  «disable-cluster-counting» := false
  «force-build» := false
  «force-no-build» := false
  «ghc-version-match-exact» := false
  «disable-matcher» := false
  «enable-stack» := false
  «stack-no-global» := false
  «stack-setup-ghc» := false
  «extra-include-dirs» := []
  «extra-lib-dirs» := []
  «ghc-supported-versions» := []
  «icu-version» := none
  «upx-version» := none
  «package-info-cache» := none

/-- A concrete input assignment on which resolution succeeds: every option
given trimmed, the exact `ghc-version` given as the required literal
`"latest"`, every flag given as boolean `false`. -/
def sampleC9Inputs : Inputs where
  option k :=
    some (match k with
      | SetupAgdaOption.«agda-version» => "2.6.2"
      | SetupAgdaOption.«bdist-name» => ""
      | SetupAgdaOption.«ghc-version-range» => "8.0"
      | SetupAgdaOption.«cabal-version» => "3.8"
      | SetupAgdaOption.«ghc-version» => "latest"
      | SetupAgdaOption.«stack-version» => "1.0")
  flag _ := some (RawInput.bool false)

/-- The record that `sampleC9Inputs` resolves to. -/
def sampleC9 : BuildOptions :=
  { sampleOptions with
    «agda-version» := "2.6.2"
    «ghc-version-range» := "8.0"
    «cabal-version» := "3.8"
    «ghc-version» := "latest"
    «stack-version» := "1.0" }

/-- A packaging environment in which the compression tool installs fine but
fails on the executable named `agda`, while bundling, testing and uploading
all succeed. -/
def c3Env : UploadEnv where
  setupUpx := Except.ok "upx"
  compressFails := fun b => if b = "agda" then some "upx failed" else none
  bundleResult := Except.ok ()
  testResult := Except.ok ()
  uploadResult := ("agda-bdist", [])

/-- A packaging environment whose smoke test fails. -/
def c8Env : UploadEnv where
  setupUpx := Except.ok "upx"
  compressFails := fun _ => none
  bundleResult := Except.ok ()
  testResult := Except.error "smoke test failed"
  uploadResult := ("agda-bdist", [])

/-! ## Helper lemmas on the version comparator -/

/-- A strict comparison below a bound refutes the corresponding
greater-or-equal comparison. -/
lemma gte_eq_false_of_lt {a b : String} (h : simver.lt a b = true) :
    simver.gte a b = false := by
  unfold simver.lt at h
  unfold simver.gte
  cases hpa : simver.parseVersion a <;> cases hpb : simver.parseVersion b <;>
    simp [hpa, hpb] at h ⊢
  case some.some x y =>
    cases hc : simver.cmpVersion x y <;> simp [hc] at h ⊢

/-! ## Helper lemmas on whitespace trimming -/

/-- Dropping a prefix by a predicate twice is the same as dropping once. -/
lemma dropWhile_dropWhile (p : Char → Bool) (l : List Char) :
    (l.dropWhile p).dropWhile p = l.dropWhile p := by
  induction l with
  | nil => rfl
  | cons a l ih =>
    by_cases h : p a = true
    · simp [List.dropWhile_cons, h, ih]
    · simp [List.dropWhile_cons, h]

/-- The head surviving `dropWhile` does not satisfy the predicate. -/
lemma dropWhile_head_false (p : Char → Bool) :
    ∀ l a as, List.dropWhile p l = a :: as → p a = false := by
  intro l
  induction l with
  | nil =>
    intro a as h
    simp at h
  | cons x xs ih =>
    intro a as h
    by_cases hx : p x = true
    · rw [List.dropWhile_cons, if_pos hx] at h
      exact ih a as h
    · rw [List.dropWhile_cons, if_neg hx] at h
      cases h
      simpa using hx

/-- A list whose head does not satisfy the predicate is unchanged by
`dropWhile`. -/
lemma dropWhile_eq_self_of_head (p : Char → Bool) (l : List Char)
    (h : ∀ a as, l = a :: as → p a = false) : List.dropWhile p l = l := by
  cases l with
  | nil => rfl
  | cons a as =>
    have hpa := h a as rfl
    simp [List.dropWhile_cons, hpa]

/-- A list none of whose members satisfies the predicate is unchanged by
`dropWhile`. -/
lemma dropWhile_eq_self_of_all (p : Char → Bool) (l : List Char)
    (h : ∀ a ∈ l, p a = false) : List.dropWhile p l = l :=
  dropWhile_eq_self_of_head p l (fun a as hl => h a (by rw [hl]; simp))

/-- A list all of whose members satisfy the predicate is emptied by
`dropWhile`. -/
lemma dropWhile_eq_nil_of_all (p : Char → Bool) (l : List Char)
    (h : ∀ a ∈ l, p a = true) : List.dropWhile p l = [] := by
  induction l with
  | nil => rfl
  | cons a l ih =>
    have ha := h a (by simp)
    simp only [List.dropWhile_cons, if_pos ha]
    exact ih (fun x hx => h x (by simp [hx]))

/-- The `dropWhile` result is a suffix of the original list. -/
lemma dropWhile_suffix_exists (p : Char → Bool) (l : List Char) :
    ∃ t, t ++ List.dropWhile p l = l := by
  induction l with
  | nil => exact ⟨[], rfl⟩
  | cons a l ih =>
    by_cases h : p a = true
    · obtain ⟨t, ht⟩ := ih
      exact ⟨a :: t, by simp [List.dropWhile_cons, h, ht]⟩
    · exact ⟨[], by simp [List.dropWhile_cons, h]⟩

/-- Membership in the `dropWhile` result implies membership in the list. -/
lemma mem_of_mem_dropWhile {p : Char → Bool} {l : List Char} {a : Char}
    (h : a ∈ l.dropWhile p) : a ∈ l := by
  obtain ⟨t, ht⟩ := dropWhile_suffix_exists p l
  rw [← ht]
  exact List.mem_append_right t h

/-- Membership in the trimmed list implies membership in the list. -/
lemma mem_of_mem_trimChars {l : List Char} {a : Char}
    (h : a ∈ trimChars l) : a ∈ l := by
  unfold trimChars at h
  rw [List.mem_reverse] at h
  have h1 := mem_of_mem_dropWhile h
  rw [List.mem_reverse] at h1
  exact mem_of_mem_dropWhile h1

/-- The trimmed list carries no leading whitespace. -/
lemma dropWhile_trimChars (l : List Char) :
    List.dropWhile Char.isWhitespace (trimChars l) = trimChars l := by
  apply dropWhile_eq_self_of_head
  intro a as h
  obtain ⟨t, ht⟩ := dropWhile_suffix_exists Char.isWhitespace
    (l.dropWhile Char.isWhitespace).reverse
  have hA : l.dropWhile Char.isWhitespace = trimChars l ++ t.reverse := by
    have h2 := congrArg List.reverse ht
    simpa [trimChars, List.reverse_append] using h2.symm
  rw [h] at hA
  exact dropWhile_head_false _ l a _ (by simpa using hA)

/-- Trimming character lists is idempotent. -/
lemma trimChars_idem (l : List Char) : trimChars (trimChars l) = trimChars l := by
  have h1 := dropWhile_trimChars l
  show ((List.dropWhile Char.isWhitespace
    (trimChars l)).reverse.dropWhile Char.isWhitespace).reverse = trimChars l
  rw [h1]
  have h2 : (trimChars l).reverse =
      List.dropWhile Char.isWhitespace
        (l.dropWhile Char.isWhitespace).reverse := by
    simp [trimChars]
  rw [h2, dropWhile_dropWhile]
  simp [trimChars]

/-- Trimming strings is idempotent. -/
lemma trim_idem (s : String) : trim (trim s) = trim s := by
  apply String.ext
  show trimChars (trim s).data = (trim s).data
  have h : (trim s).data = trimChars s.data := rfl
  rw [h]
  exact trimChars_idem _

/-- A whitespace-free list is unchanged by trimming. -/
lemma trimChars_of_all (l : List Char)
    (h : ∀ a ∈ l, Char.isWhitespace a = false) : trimChars l = l := by
  unfold trimChars
  rw [dropWhile_eq_self_of_all _ _ h]
  rw [dropWhile_eq_self_of_all _ _ (fun a ha => h a (List.mem_reverse.mp ha))]
  exact List.reverse_reverse l

/-- Members of the whitespace-removing filter are not whitespace. -/
lemma mem_filter_no_ws {l : List Char} {a : Char}
    (ha : a ∈ l.filter (fun c => !c.isWhitespace)) :
    Char.isWhitespace a = false := by
  have h := List.of_mem_filter ha
  simpa using h

/-- The `bdist-name` normalization is a fixed point of trimming. -/
lemma bdistNormalize_trim_fix (s : String) :
    trim (bdistNormalize s) = bdistNormalize s := by
  apply String.ext
  show trimChars (bdistNormalize s).data = (bdistNormalize s).data
  have h : (bdistNormalize s).data =
      trimChars (s.data.filter (fun c => !c.isWhitespace)) := rfl
  rw [h]
  exact trimChars_idem _

/-- The `bdist-name` normalization is idempotent. -/
lemma bdistNormalize_idem (s : String) :
    bdistNormalize (bdistNormalize s) = bdistNormalize s := by
  have hsub : ∀ a ∈ (bdistNormalize s).data, Char.isWhitespace a = false := by
    intro a ha
    have h : (bdistNormalize s).data =
        trimChars (s.data.filter (fun c => !c.isWhitespace)) := rfl
    rw [h] at ha
    exact mem_filter_no_ws (mem_of_mem_trimChars ha)
  have hfilter : (bdistNormalize s).data.filter (fun c => !c.isWhitespace) =
      (bdistNormalize s).data :=
    List.filter_eq_self.mpr (fun a ha => by simp [hsub a ha])
  show trim ⟨(bdistNormalize s).data.filter (fun c => !c.isWhitespace)⟩ =
    bdistNormalize s
  rw [hfilter]
  exact bdistNormalize_trim_fix s

/-- Normalizing a trimmed non-empty string cannot give the empty string:
a trimmed non-empty string contains a non-whitespace character, which the
whitespace filter keeps. -/
lemma bdistNormalize_ne_empty {s : String} (h1 : trim s = s)
    (h2 : ¬ s = "") : ¬ bdistNormalize s = "" := by
  intro hcon
  by_cases hall : ∀ a ∈ s.data, Char.isWhitespace a = true
  · have hnil := dropWhile_eq_nil_of_all _ _ hall
    have htr : trimChars s.data = [] := by
      unfold trimChars
      rw [hnil]
      rfl
    exact h2 (by rw [← h1]; exact String.ext htr)
  · push_neg at hall
    obtain ⟨a, ha, hws⟩ := hall
    have hmem : a ∈ s.data.filter (fun c => !c.isWhitespace) :=
      List.mem_filter.mpr ⟨ha, by simp [hws]⟩
    have hallf : ∀ b ∈ s.data.filter (fun c => !c.isWhitespace),
        Char.isWhitespace b = false := fun b hb => mem_filter_no_ws hb
    have hd : (bdistNormalize s).data =
        s.data.filter (fun c => !c.isWhitespace) := by
      show trimChars _ = _
      exact trimChars_of_all _ hallf
    have hne : (bdistNormalize s).data ≠ [] := by
      rw [hd]
      intro hnil
      rw [hnil] at hmem
      cases hmem
    exact hne (by rw [hcon])

/-- Resolved option values are fixed points of trimming, provided the
declared defaults are themselves trimmed. -/
lemma getOption_trim_fix (δ : SetupAgdaOption → Option String) (i : Inputs)
    (k : SetupAgdaOption) (hδ : ∀ k s, δ k = some s → trim s = s) :
    trim (getOption δ i k) = getOption δ i k := by
  unfold getOption
  cases h : i.option k with
  | some s => exact trim_idem s
  | none =>
    cases hd : δ k with
    | some d => simpa using hδ k d hd
    | none => rfl

/-- Feeding a record with trimmed option fields, empty directory lists and
absent optional fields back through the lookup capability resolves to the
same record. -/
lemma resolveRecord_toInputs (δ : SetupAgdaOption → Option String)
    (o : BuildOptions)
    (h1 : trim o.«agda-version» = o.«agda-version»)
    (h2 : trim o.«bdist-name» = o.«bdist-name»)
    (h3 : trim o.«ghc-version-range» = o.«ghc-version-range»)
    (h4 : trim o.«cabal-version» = o.«cabal-version»)
    (h5 : trim o.«ghc-version» = o.«ghc-version»)
    (h6 : trim o.«stack-version» = o.«stack-version»)
    (h7 : o.«extra-include-dirs» = [])
    (h8 : o.«extra-lib-dirs» = [])
    (h9 : o.«ghc-supported-versions» = [])
    (h10 : o.«icu-version» = none)
    (h11 : o.«upx-version» = none)
    (h12 : o.«package-info-cache» = none) :
    resolveRecord δ (toInputs o) = o := by
  cases o
  simp only at h1 h2 h3 h4 h5 h6 h7 h8 h9 h10 h11 h12
  subst h7 h8 h9 h10 h11 h12
  simp [resolveRecord, toInputs, getOption, getFlag, h1, h2, h3, h4, h5, h6]

/-! ## Claim theorems -/

/-- C1: the executable-compression decision in the source is the user's
flag on every platform — `compressExe` does not consult the operating
system at all, so with the flag set it returns `true`, also on macOS and
Windows, in contradiction with its own NOTE comment and with the claim. -/
theorem c1_compressExe_ignores_platform :
    compressExe { sampleOptions with «bdist-compress-exe» := true } = true :=
  rfl

/-- C2 counterexample: with `ghc-version` `"9.0.1"` (at least 8.4), the
static-linking predicate still returns `false` — and since the source
function never consults the platform, it returns `false` on every platform,
refuting the claim that some platform and some options with
`ghc-version >= 8.4` make it true. -/
theorem c2_counterexample :
    simver.gte "9.0.1" "8.4" = true ∧
      supportsExecutableStatic
        { sampleOptions with «ghc-version» := "9.0.1" } = false :=
  ⟨by decide, rfl⟩

/-- C2 amended: the static-executable-linking rule is disabled
unconditionally on every platform, because its platform clause is the
hardcoded literal `false`; the GHC >= 8.4 clause can therefore never make
the predicate true. -/
theorem c2_executableStatic_never_true (o : BuildOptions) :
    supportsExecutableStatic o = false :=
  rfl

/-- C4: the compression-tool-usability predicate at the failing inputs: on
macOS Big Sur (Darwin release 20.6.0, the oldest-supported macOS variant)
the source returns `true`, and on the newer Darwin release 21.1.0 it
returns `false` — the exact opposite of the claim and of the function's own
NOTE comment, because the source compares with `lt` instead of the
complementary direction. -/
theorem c4_supportsUPX_at_failing_input :
    supportsUPX OS.macos "20.6.0" = true ∧
      supportsUPX OS.macos "21.1.0" = false := by
  decide

/-- C5: for every declared flag, the resolver maps a raw input to `false`
exactly when it is one of the four falsy representations — absent, the
empty string, the boolean `false`, or the string `"false"` — and maps every
other input, in particular the string `"0"`, to `true`. -/
theorem c5_flag_resolution (v : Option RawInput) (k : SetupAgdaFlag) :
    (getFlag ⟨fun _ => none, fun _ => v⟩ k = false ↔
      v = none ∨ v = some (RawInput.str "") ∨ v = some (RawInput.bool false) ∨
        v = some (RawInput.str "false")) ∧
    getFlag ⟨fun _ => none, fun _ => some (RawInput.str "0")⟩ k = true := by
  refine ⟨?_, rfl⟩
  cases v with
  | none => simp [getFlag]
  | some r =>
    cases r with
    | bool b => cases b <;> simp [getFlag]
    | str s =>
      by_cases h1 : s = ""
      · subst h1; simp [getFlag]
      · by_cases h2 : s = "false"
        · subst h2; simp [getFlag]
        · simp [getFlag, h1, h2]

/-- C6: the Unicode-cluster-counting rule is the conjunction of exactly the
four clauses Agda >= 2.5.3, user has not disabled it, Stack is not enabled,
and Agda >= 2.6.2; in particular for Agda version `"2.5.0"` it is `false`
regardless of every other option. -/
theorem c6_cluster_counting_clauses (o : BuildOptions) :
    (supportsClusterCounting o = true ↔
      simver.gte o.«agda-version» "2.5.3" = true ∧
        o.«disable-cluster-counting» = false ∧
        o.«enable-stack» = false ∧
        simver.gte o.«agda-version» "2.6.2" = true) ∧
    (o.«agda-version» = "2.5.0" → supportsClusterCounting o = false) := by
  constructor
  · simp only [supportsClusterCounting, Bool.and_eq_true, Bool.not_eq_true']
    tauto
  · intro h
    have h253 : simver.gte "2.5.0" "2.5.3" = false := by decide
    simp [supportsClusterCounting, h, h253]

/-- C6 witness: at Agda version 2.5.0 the clustering rule is off. -/
theorem c6_witness :
    supportsClusterCounting
      { sampleOptions with «agda-version» := "2.5.0" } = false :=
  (c6_cluster_counting_clauses _).2 rfl

/-- C7: the download step degrades failures to the "not found" result: on a
package-index hit whose fetch raises, it catches the error and returns the
non-raising `null` result, and on an index miss it returns `null` as well;
in neither case does it raise to its caller. -/
theorem c7_download_degrades (index : String → Option String)
    (fetch : String → Except String String) (n : String) :
    (∀ url e, index n = some url → fetch url = Except.error e →
      download index fetch n = Except.ok none) ∧
    (index n = none → download index fetch n = Except.ok none) := by
  constructor
  · intro url e h1 h2
    simp [download, h1, h2]
  · intro h
    simp [download, h]

/-- C7 witness: a concrete index hit whose fetch fails yields the caught
"not found" result. -/
theorem c7_witness :
    download (fun _ => some "url") (fun _ => Except.error "network error")
      "agda-2.6.2" = Except.ok none :=
  (c7_download_degrades (fun _ => some "url")
    (fun _ => Except.error "network error") "agda-2.6.2").1 "url"
    "network error" rfl rfl

/-- C10: the ICU resolution step assigns `icu-version` `"71.1"` for Agda
at least 2.6.2, `"67.1"` for Agda at least 2.5.3 and below 2.6.2, leaves
the record untouched otherwise, and in every case changes no field other
than `icu-version`. -/
theorem c10_resolveIcuVersion_spec (o : BuildOptions) :
    (simver.gte o.«agda-version» "2.6.2" = true →
      (resolveIcuVersion o).«icu-version» = some "71.1") ∧
    (simver.gte o.«agda-version» "2.5.3" = true →
      simver.lt o.«agda-version» "2.6.2" = true →
      (resolveIcuVersion o).«icu-version» = some "67.1") ∧
    (simver.gte o.«agda-version» "2.6.2" = false →
      simver.gte o.«agda-version» "2.5.3" = false →
      resolveIcuVersion o = o) ∧
    { resolveIcuVersion o with «icu-version» := o.«icu-version» } = o := by
  refine ⟨?_, ?_, ?_, ?_⟩
  · intro h
    simp [resolveIcuVersion, h]
  · intro h1 h2
    have h3 := gte_eq_false_of_lt h2
    simp [resolveIcuVersion, h1, h3]
  · intro h1 h2
    simp [resolveIcuVersion, h1, h2]
  · unfold resolveIcuVersion
    split
    · rfl
    · split
      · rfl
      · rfl

/-- C3 counterexample: with two executables where the compression tool
fails on the first, the compression tool is never invoked on the second
executable — compression is not "still attempted on each remaining
executable" as the claim states (though the packaging run indeed does not
abort). -/
theorem c3_counterexample :
    c3Env.compressFails "agda" = some "upx failed" ∧
    (upload OS.linux { sampleOptions with «bdist-compress-exe» := true }
        c3Env ["agda", "agda-mode"]).2.compressAttempted = ["agda"] ∧
    (upload OS.linux { sampleOptions with «bdist-compress-exe» := true }
        c3Env ["agda", "agda-mode"]).1 = Except.ok "agda-bdist" := by
  refine ⟨by decide, by decide, rfl⟩

/-- C3 amended: compression failures are handled for the compression block
as a whole — the first failure is caught and logged, the remaining
executables are skipped without further compression attempts, and the
packaging run proceeds exactly as if no compression had been requested, so
it never aborts because of a compression failure. -/
theorem c3_compression_block_failure (os : OS) (o : BuildOptions)
    (env : UploadEnv) (b : String) (bs : List String) (e u : String)
    (hfail : env.compressFails b = some e)
    (hupx : env.setupUpx = Except.ok u)
    (hon : shouldCompressExe os o = true) :
    (upload os o env (b :: bs)).2.compressAttempted = [b] ∧
    (upload os o env (b :: bs)).1 = (upload os o env []).1 := by
  constructor
  · cases hb : (if (o.«icu-version»).isSome then env.bundleResult
        else Except.ok ()) with
    | error eb => simp [upload, hb, hon, hupx, compressBins, hfail]
    | ok _ =>
      cases ht : env.testResult with
      | error et => simp [upload, hb, ht, hon, hupx, compressBins, hfail]
      | ok _ => simp [upload, hb, ht, hon, hupx, compressBins, hfail]
  · cases hb : (if (o.«icu-version»).isSome then env.bundleResult
        else Except.ok ()) with
    | error eb => simp [upload, hb]
    | ok _ =>
      cases ht : env.testResult with
      | error et => simp [upload, hb, ht]
      | ok _ => simp [upload, hb, ht]

/-- C3 witness: the amended statement at the concrete failing environment. -/
theorem c3_witness :
    (upload OS.linux { sampleOptions with «bdist-compress-exe» := true }
        c3Env ["agda", "agda-mode"]).2.compressAttempted = ["agda"] ∧
    (upload OS.linux { sampleOptions with «bdist-compress-exe» := true }
        c3Env ["agda", "agda-mode"]).1 =
      (upload OS.linux { sampleOptions with «bdist-compress-exe» := true }
        c3Env []).1 :=
  c3_compression_block_failure OS.linux
    { sampleOptions with «bdist-compress-exe» := true } c3Env "agda"
    ["agda-mode"] "upx failed" "upx" (by decide) rfl rfl

/-- C8: the smoke test gates publication: the artifact upload is invoked
only when the smoke test succeeded, and whenever the smoke test fails its
error is the result of the packaging step (once the test is actually
reached) and the artifact upload is never invoked. -/
theorem c8_smoke_test_gates_publish (os : OS) (o : BuildOptions)
    (env : UploadEnv) (bins : List String) :
    ((upload os o env bins).2.uploadInvoked = true →
      env.testResult = Except.ok ()) ∧
    (∀ e, env.testResult = Except.error e →
      (upload os o env bins).2.uploadInvoked = false ∧
      ((upload os o env bins).2.testInvoked = true →
        (upload os o env bins).1 = Except.error e)) := by
  cases hb : (if (o.«icu-version»).isSome then env.bundleResult
      else Except.ok ()) with
  | error eb =>
    constructor
    · intro h
      simp [upload, hb] at h
    · intro e he
      simp [upload, hb]
  | ok _ =>
    cases ht : env.testResult with
    | error et =>
      constructor
      · intro h
        simp [upload, hb, ht] at h
      · intro e he
        cases he
        simp [upload, hb, ht]
    | ok _ =>
      constructor
      · intro _
        rfl
      · intro e he
        cases he

/-- C8 witness: with a failing smoke test, the artifact upload is not
invoked. -/
theorem c8_witness :
    (upload OS.linux sampleOptions c8Env ["agda"]).2.uploadInvoked = false :=
  ((c8_smoke_test_gates_publish OS.linux sampleOptions c8Env ["agda"]).2
    "smoke test failed" rfl).1

/-- C9: the options resolver is idempotent: whenever resolution succeeds,
feeding the resolved record back through the lookup capability and
resolving again succeeds with the same record — trimming, default
substitution, flag normalization and template whitespace removal are all
fixed points on already-resolved values.  The declared defaults (static
metadata read from the action manifest, which is not among the provided
sources) are assumed whitespace-trimmed, as plain YAML scalar defaults
are. -/
theorem c9_getOptions_idempotent (δ : SetupAgdaOption → Option String)
    (vr mo : String → Bool) (i : Inputs) (o : BuildOptions)
    (hδ : ∀ k s, δ k = some s → trim s = s)
    (h : getOptions δ vr mo i = Except.ok o) :
    getOptions δ vr mo (toInputs o) = Except.ok o := by
  have t1 : trim (resolveRecord δ i).«agda-version» =
      (resolveRecord δ i).«agda-version» :=
    getOption_trim_fix δ i SetupAgdaOption.«agda-version» hδ
  have t2 : trim (resolveRecord δ i).«bdist-name» =
      (resolveRecord δ i).«bdist-name» :=
    getOption_trim_fix δ i SetupAgdaOption.«bdist-name» hδ
  have t3 : trim (resolveRecord δ i).«ghc-version-range» =
      (resolveRecord δ i).«ghc-version-range» :=
    getOption_trim_fix δ i SetupAgdaOption.«ghc-version-range» hδ
  have t4 : trim (resolveRecord δ i).«cabal-version» =
      (resolveRecord δ i).«cabal-version» :=
    getOption_trim_fix δ i SetupAgdaOption.«cabal-version» hδ
  have t5 : trim (resolveRecord δ i).«ghc-version» =
      (resolveRecord δ i).«ghc-version» :=
    getOption_trim_fix δ i SetupAgdaOption.«ghc-version» hδ
  have t6 : trim (resolveRecord δ i).«stack-version» =
      (resolveRecord δ i).«stack-version» :=
    getOption_trim_fix δ i SetupAgdaOption.«stack-version» hδ
  unfold getOptions validate at h
  by_cases hn : (resolveRecord δ i).«agda-version» = "nightly"
  · rw [if_pos hn] at h
    cases h
  · rw [if_neg hn] at h
    by_cases hg : (resolveRecord δ i).«ghc-version» = "latest"
    · rw [if_neg (not_not_intro hg)] at h
      by_cases hv : vr (resolveRecord δ i).«ghc-version-range» = true
      · rw [if_neg (not_not_intro hv)] at h
        by_cases hf : ((resolveRecord δ i).«force-build» &&
            (resolveRecord δ i).«force-no-build») = true
        · rw [if_pos hf] at h
          cases h
        · rw [if_neg hf] at h
          by_cases hb : (resolveRecord δ i).«bdist-name» = ""
          · rw [if_pos hb] at h
            by_cases hm : mo bdistNameDefaultTemplate = true
            · rw [if_pos hm] at h
              cases h
              have hrr := resolveRecord_toInputs δ (resolveRecord δ i)
                t1 t2 t3 t4 t5 t6 rfl rfl rfl rfl rfl rfl
              unfold getOptions
              rw [hrr]
              simp [validate, hn, hg, hv, hf, hb, hm]
            · rw [if_neg hm] at h
              cases h
          · rw [if_neg hb] at h
            by_cases hm :
                mo (bdistNormalize (resolveRecord δ i).«bdist-name») = true
            · rw [if_pos hm] at h
              cases h
              have t2w : trim (bdistNormalize
                  (resolveRecord δ i).«bdist-name») =
                  bdistNormalize (resolveRecord δ i).«bdist-name» :=
                bdistNormalize_trim_fix _
              have hrr := resolveRecord_toInputs δ
                { resolveRecord δ i with
                  «bdist-name» :=
                    bdistNormalize (resolveRecord δ i).«bdist-name» }
                t1 t2w t3 t4 t5 t6 rfl rfl rfl rfl rfl rfl
              have hbW := bdistNormalize_ne_empty t2 hb
              unfold getOptions
              rw [hrr]
              simp [validate, hn, hg, hv, hf, hbW, hm, bdistNormalize_idem]
            · rw [if_neg hm] at h
              cases h
      · rw [if_pos hv] at h
        cases h
    · rw [if_pos hg] at h
      cases h

/-- C9 witness: a concrete successful resolution, fed back through the
lookup capability, resolves to the same record. -/
theorem c9_witness :
    getOptions (fun _ => none) (fun _ => true) (fun _ => true)
      (toInputs sampleC9) = Except.ok sampleC9 :=
  c9_getOptions_idempotent (fun _ => none) (fun _ => true) (fun _ => true)
    sampleC9Inputs sampleC9 (fun _ s hs => by cases hs) rfl

/-- C10 witness: at Agda version 2.6.2 the resolved ICU version is 71.1. -/
theorem c10_witness :
    (resolveIcuVersion
      { sampleOptions with «agda-version» := "2.6.2" }).«icu-version» =
      some "71.1" :=
  (c10_resolveIcuVersion_spec _).1 (by decide)

end SetupAgda
